import Mathlib

/-!
Shallow embedding of the attendance-management server core
(`src/server.js` together with the SQL schema in `schema.sql`).

The relational store is modelled as lists of rows.  SQL queries are
translated row-by-row: `WHERE` clauses become `List.filter`, joins become
lookups (`List.find?`, at most one match because the joined column is a
primary key), `COUNT(DISTINCT c)` becomes `List.dedup` on the projected
column, and `ORDER BY` becomes `List.insertionSort` with the comparator
used by the query.  Request handlers become total functions returning a
result value; the `BEGIN`/`COMMIT`/`ROLLBACK` transaction of the
attendance commit is modelled by `commitAttendance` returning
`Except String Store`: an `Except.error` result corresponds to a rollback,
so the caller keeps the pre-call store (`commitResultStore`).
-/

/-- Row of the `classes` table (`schema.sql`): `id SERIAL PRIMARY KEY`,
`name`, `description`. -/
structure SchoolClass where
  id : Nat
  name : String
  description : Option String
deriving DecidableEq

/-- Row of the `students` table: `id SERIAL PRIMARY KEY`, `name`,
`roll_number`, `class_id REFERENCES classes(id)`. -/
structure Student where
  id : Nat
  name : String
  roll_number : Option String
  class_id : Nat
deriving DecidableEq

/-- Row of the `sessions` table: `id SERIAL PRIMARY KEY`, `class_id`,
`date DATE`, `topic`.  Dates are kept as their `YYYY-MM-DD` strings; for
such fixed-width strings the SQL `DATE` order agrees with the string
order used below. -/
structure Session where
  id : Nat
  class_id : Nat
  date : String
  topic : Option String
deriving DecidableEq

/-- Row of the `attendance` table: `session_id`, `student_id`, `status`,
`marked_at TIMESTAMP`, with `UNIQUE(session_id, student_id)`.  The
surrogate `id SERIAL` column is not referenced by any of the modelled
queries and is omitted.  Timestamps are abstract `Nat` instants. -/
structure AttendanceRecord where
  session_id : Nat
  student_id : Nat
  status : String
  marked_at : Nat
deriving DecidableEq

/-- The relational store: one list of rows per table. -/
structure Store where
  classes : List SchoolClass
  students : List Student
  sessions : List Session
  attendance : List AttendanceRecord
deriving DecidableEq

/-- The `(session_id, student_id)` key of an attendance row, the column
pair covered by the `UNIQUE(session_id, student_id)` constraint. -/
def keyOf (a : AttendanceRecord) : Nat × Nat :=
  (a.session_id, a.student_id)

/-- JavaScript `String(x).toLowerCase()` for the ASCII statuses involved:
per-character lower-casing of the string. -/
def jsToLower (s : String) : String :=
  String.mk (s.data.map Char.toLower)

/-- One element of the `records` array of a `POST /api/attendance` body,
after the JavaScript numeric coercion `parseInt(r.student_id, 10)`:
`none` models a `NaN` parse result. -/
structure RawRecord where
  student_id : Option Int
  status : String
deriving DecidableEq

/-- `parseInt(r.student_id, 10)` followed by the route's
`!isNaN(id) && id > 0` filter (server.js lines 694-696). -/
def coerceStudentId (r : RawRecord) : Option Nat :=
  match r.student_id with
  | none => none
  | some i => if 0 < i then some i.toNat else none

/-- The `studentIds` array of the route: student ids surviving coercion,
in request order and with repetitions kept (no deduplication). -/
def survivingIds (records : List RawRecord) : List Nat :=
  records.filterMap coerceStudentId

/-- The route's `validStatuses` array. -/
def validStatuses : List String :=
  ["present", "absent"]

/-- Whether `validStatuses.includes(String(r.status).toLowerCase())`
(server.js line 705). -/
def statusOk (r : RawRecord) : Bool :=
  validStatuses.contains (jsToLower r.status)

/-- The rows of `SELECT id FROM students WHERE id IN (studentIds) AND
class_id = sessionClassId` (server.js lines 712-714): each table row is
returned at most once, regardless of repetitions in `studentIds`. -/
def matchingStudents (st : Store) (classId : Nat) (ids : List Nat) : List Student :=
  st.students.filter (fun s => ids.contains s.id && s.class_id == classId)

/-- The route's `validRecords` filter (server.js lines 722-726). -/
def isValidRecord (r : RawRecord) : Bool :=
  (coerceStudentId r).isSome && statusOk r

/-- the `INSERT ... ON CONFLICT(session_id, student_id) DO UPDATE SET
status = EXCLUDED.status` statement (server.js lines 734-739): on
conflict only `status` is overwritten, `marked_at` keeps its stored
value; otherwise a fresh row is appended with `marked_at` set to the
transaction timestamp `now`. -/
def upsert (att : List AttendanceRecord) (sid stid : Nat) (status : String) (now : Nat) :
    List AttendanceRecord :=
  if att.any (fun a => a.session_id == sid && a.student_id == stid) then
    att.map (fun a =>
      if a.session_id == sid && a.student_id == stid then
        { a with status := status }
      else a)
  else
    att ++ [{ session_id := sid, student_id := stid, status := status, marked_at := now }]

/-- One iteration of the upsert loop (server.js lines 741-745). -/
def applyRecord (sid now : Nat) (att : List AttendanceRecord) (r : RawRecord) :
    List AttendanceRecord :=
  match coerceStudentId r with
  | some stid => upsert att sid stid (jsToLower r.status) now
  | none => att

instance {e a : Type} [DecidableEq e] [DecidableEq a] : DecidableEq (Except e a) := fun x y =>
  match x, y with
  | Except.ok v, Except.ok w =>
    if h : v = w then isTrue (by rw [h]) else isFalse (by intro hc; cases hc; exact h rfl)
  | Except.error v, Except.error w =>
    if h : v = w then isTrue (by rw [h]) else isFalse (by intro hc; cases hc; exact h rfl)
  | Except.ok _, Except.error _ => isFalse (by intro hc; cases hc)
  | Except.error _, Except.ok _ => isFalse (by intro hc; cases hc)

/-- The `POST /api/attendance` handler body (server.js lines 662-755).
All validation failures issue `ROLLBACK` before responding, so they are
modelled as `Except.error`; the final `COMMIT` is the `Except.ok` store.
A `NaN` result of `parseInt(session_id)` behaves like the non-positive
case (same 400 response) and is subsumed by the `session_id ≤ 0` test. -/
def commitAttendance (st : Store) (now : Nat) (session_id : Int)
    (records : List RawRecord) : Except String Store :=
  if records.isEmpty then
    Except.error "session_id and an array of records are required"
  else if session_id ≤ 0 then
    Except.error "Invalid session_id"
  else
    match st.sessions.find? (fun s => s.id == session_id.toNat) with
    | none => Except.error "Invalid session_id"
    | some sess =>
      let studentIds := survivingIds records
      if studentIds.isEmpty then
        Except.error "No valid student_ids provided"
      else if !(records.all statusOk) then
        Except.error "Invalid status values. Must be present or absent"
      else if (matchingStudents st sess.class_id studentIds).length ≠ studentIds.length then
        Except.error "Some students do not belong to this session class"
      else
        let validRecords := records.filter isValidRecord
        if validRecords.isEmpty then
          Except.error "No valid records to save"
        else
          Except.ok { st with
            attendance := validRecords.foldl (applyRecord session_id.toNat now) st.attendance }

/-- The store the caller observes after the handler returns: the new
store on `COMMIT`, the unchanged pre-call store on `ROLLBACK`. -/
def commitResultStore (st : Store) (now : Nat) (session_id : Int)
    (records : List RawRecord) : Store :=
  match commitAttendance st now session_id records with
  | Except.ok st2 => st2
  | Except.error _ => st

/-- Output row of both class-summary queries: `student_id`,
`student_name`, `roll_number`, `total`, `presents`, `absents`.  `absents`
is computed by SQL integer subtraction, hence `Int`. -/
structure SummaryRow where
  student_id : Nat
  student_name : String
  roll_number : Option String
  total : Nat
  presents : Nat
  absents : Int
deriving DecidableEq

/-- The attendance rows of one student: `attendance a` joined on
`a.student_id = st.id`. -/
def studentAttendance (st : Store) (studentId : Nat) : List AttendanceRecord :=
  st.attendance.filter (fun a => a.student_id == studentId)

/-- One aggregate row of `GET /api/reports/summary-by-class`
(server.js lines 868-880): `total` is `COUNT(DISTINCT a.session_id)`
over the student's attendance rows, `presents` is
`SUM(CASE WHEN a.status = 'present' THEN 1 ELSE 0 END)`, and
`absents` is their difference.  The query's second `LEFT JOIN` onto
`sessions` binds columns that the `SELECT` list never uses and, since
`sessions.id` is a primary key, hits at most one row, so it neither
multiplies nor drops rows and is not represented. -/
def summaryRow (st : Store) (s : Student) : SummaryRow :=
  let mine := studentAttendance st s.id
  let total := ((mine.map (fun a => a.session_id)).dedup).length
  let presents := (mine.filter (fun a => a.status == "present")).length
  { student_id := s.id, student_name := s.name, roll_number := s.roll_number,
    total := total, presents := presents, absents := (total : Int) - (presents : Int) }

/-- The `ORDER BY st.name` comparator of both summary queries. -/
def nameLe (a b : SummaryRow) : Prop :=
  a.student_name ≤ b.student_name

instance : DecidableRel nameLe :=
  fun a b => inferInstanceAs (Decidable (a.student_name ≤ b.student_name))

instance : IsTotal SummaryRow nameLe :=
  ⟨fun a b => le_total a.student_name b.student_name⟩

instance : IsTrans SummaryRow nameLe :=
  ⟨fun _ _ _ h1 h2 => le_trans h1 h2⟩

/-- `GET /api/reports/summary-by-class` (server.js lines 848-888): one
aggregate row per student of the class (`WHERE st.class_id = ?`,
`GROUP BY st.id, st.name, st.roll_number`), sorted by `ORDER BY st.name`. -/
def classSummary (st : Store) (classId : Nat) : List SummaryRow :=
  List.insertionSort nameLe
    ((st.students.filter (fun s => s.class_id == classId)).map (summaryRow st))

/-- The row set produced for one student by the export query's
`FROM students st LEFT JOIN sessions sess ON sess.class_id = st.class_id
LEFT JOIN attendance a ON a.student_id = st.id AND a.session_id = sess.id`
(server.js lines 964-977): every session of the student's class yields at
least one row; a session with matching attendance rows yields one row per
match; a student of a class with no sessions yields a single all-`NULL`
row. -/
def exportJoinRows (st : Store) (s : Student) :
    List (Option Session × Option AttendanceRecord) :=
  let sessRows := st.sessions.filter (fun sess => sess.class_id == s.class_id)
  if sessRows.isEmpty then [(none, none)]
  else
    sessRows.flatMap (fun sess =>
      let hits := st.attendance.filter
        (fun a => a.student_id == s.id && a.session_id == sess.id)
      if hits.isEmpty then [(some sess, none)]
      else hits.map (fun a => (some sess, some a)))

/-- One aggregate row of `GET /api/reports/summary-by-class/export`:
`presents` is `SUM(CASE WHEN a.status = 'present' THEN 1 ELSE 0 END)`,
`total` is `COUNT(sess.id)` (non-`NULL` joined sessions), `absents` their
difference. -/
def exportSummaryRow (st : Store) (s : Student) : SummaryRow :=
  let rows := exportJoinRows st s
  let presents := (rows.filter (fun r =>
    match r.2 with
    | some a => a.status == "present"
    | none => false)).length
  let total := (rows.filter (fun r => r.1.isSome)).length
  { student_id := s.id, student_name := s.name, roll_number := s.roll_number,
    total := total, presents := presents, absents := (total : Int) - (presents : Int) }

/-- `GET /api/reports/summary-by-class/export` (server.js lines 950-993),
up to the per-row aggregates: same student set and same `ORDER BY st.name`
as `classSummary`, but aggregates from the all-sessions join above.  The
CSV/PDF renderers consume these rows in list order. -/
def classSummaryExport (st : Store) (classId : Nat) : List SummaryRow :=
  List.insertionSort nameLe
    ((st.students.filter (fun s => s.class_id == classId)).map (exportSummaryRow st))

/-- Output row of the student-report query: `a.status, a.marked_at,
sess.id, sess.date, sess.topic, c.id, c.name`. -/
structure ReportRow where
  status : String
  marked_at : Nat
  session_id : Nat
  date : String
  topic : Option String
  class_id : Nat
  class_name : String
deriving DecidableEq

/-- The joined rows of `GET /api/reports/by-student` (server.js lines
812-819): attendance rows of the student, inner-joined with their session
and its class (both joins on primary keys, hence `List.find?`). -/
def studentReportRows (st : Store) (studentId : Nat) : List ReportRow :=
  st.attendance.filterMap (fun a =>
    if a.student_id == studentId then
      match st.sessions.find? (fun sess => sess.id == a.session_id) with
      | none => none
      | some sess =>
        match st.classes.find? (fun c => c.id == sess.class_id) with
        | none => none
        | some c =>
          some { status := a.status, marked_at := a.marked_at, session_id := sess.id,
                 date := sess.date, topic := sess.topic, class_id := c.id,
                 class_name := c.name }
    else none)

/-- The `ORDER BY sess.date DESC, sess.id DESC` comparator. -/
def sessDesc (a b : ReportRow) : Prop :=
  b.date < a.date ∨ (b.date = a.date ∧ b.session_id ≤ a.session_id)

instance : DecidableRel sessDesc :=
  fun a b =>
    inferInstanceAs (Decidable (b.date < a.date ∨ (b.date = a.date ∧ b.session_id ≤ a.session_id)))

instance : IsTotal ReportRow sessDesc :=
  ⟨fun a b => by
    rcases lt_trichotomy b.date a.date with h | h | h
    · exact Or.inl (Or.inl h)
    · rcases Nat.le_total b.session_id a.session_id with h2 | h2
      · exact Or.inl (Or.inr ⟨h, h2⟩)
      · exact Or.inr (Or.inr ⟨h.symm, h2⟩)
    · exact Or.inr (Or.inl h)⟩

instance : IsTrans ReportRow sessDesc :=
  ⟨by
    intro a b c hab hbc
    rcases hab with h1 | ⟨h1, h1i⟩ <;> rcases hbc with h2 | ⟨h2, h2i⟩
    · exact Or.inl (lt_trans h2 h1)
    · exact Or.inl (h2 ▸ h1)
    · exact Or.inl (lt_of_lt_of_le h2 (le_of_eq h1))
    · exact Or.inr ⟨h2.trans h1, le_trans h2i h1i⟩⟩

/-- The result list of `GET /api/reports/by-student`: the joined rows in
the order of `ORDER BY sess.date DESC, sess.id DESC`. -/
def studentReport (st : Store) (studentId : Nat) : List ReportRow :=
  List.insertionSort sessDesc (studentReportRows st studentId)

/-- The authenticated principal attached to a request by `requireAuth`:
the `safeUser` stored in the session map (server.js lines 86-92). -/
structure Principal where
  id : Nat
  role : String
  class_id : Option Nat
  student_id : Option Nat
deriving DecidableEq

/-- Outcome of a report route: a 200 payload, a 400 validation error, or
a 403 authorization error. -/
inductive ApiResult (α : Type) where
  | ok : α → ApiResult α
  | validationError : String → ApiResult α
  | authorizationError : String → ApiResult α
deriving DecidableEq

/-- The `GET /api/reports/by-student` handler (server.js lines 796-845):
`parseInt` validation of `student_id` first, then the role gate
(admin, then student restricted to its own record, then teacher), then
the query.  A `NaN` parse is subsumed by the non-positive case. -/
def getReportByStudent (st : Store) (user : Principal) (student_id : Int) :
    ApiResult (List ReportRow) :=
  if student_id ≤ 0 then ApiResult.validationError "Invalid student_id"
  else
    let sid := student_id.toNat
    if user.role == "admin" then ApiResult.ok (studentReport st sid)
    else if user.role == "student" then
      match user.student_id with
      | none => ApiResult.authorizationError "Forbidden: You can only view your own attendance"
      | some own =>
        if own == sid then ApiResult.ok (studentReport st sid)
        else ApiResult.authorizationError "Forbidden: You can only view your own attendance"
    else if user.role == "teacher" then ApiResult.ok (studentReport st sid)
    else ApiResult.authorizationError "Forbidden"

/-- An export payload: the rows handed to the CSV renderer
(`sendStudentReportCsv`) or to the PDF renderer (`sendStudentReportPdf`),
in the order produced by the report query. -/
inductive ExportDoc where
  | csvDoc : List ReportRow → ExportDoc
  | pdfDoc : List ReportRow → ExportDoc
deriving DecidableEq

/-- The `GET /api/reports/by-student/export` handler (server.js lines
891-947).  `format` defaults to `"csv"` at destructuring when the query
parameter is absent; the student branch checks ownership first and then
rejects any non-empty format other than `pdf`
(`format && String(format).toLowerCase() !== 'pdf'`).  The handler never
parses `student_id`; it compares it with the principal's `student_id`
directly, so it is taken here as the decimal-coded id `student_id : Nat`
(for such canonical encodings the JavaScript string comparison agrees
with numeric equality). -/
def exportReportByStudent (st : Store) (user : Principal) (student_id : Nat)
    (format : String) : ApiResult ExportDoc :=
  let rows := studentReport st student_id
  let render : ApiResult ExportDoc :=
    if format == "pdf" then ApiResult.ok (ExportDoc.pdfDoc rows)
    else ApiResult.ok (ExportDoc.csvDoc rows)
  if user.role == "admin" then render
  else if user.role == "student" then
    match user.student_id with
    | none => ApiResult.authorizationError "Forbidden"
    | some own =>
      if own == student_id then
        if format != "" && jsToLower format != "pdf" then
          ApiResult.validationError "Students can only download PDF reports."
        else render
      else ApiResult.authorizationError "Forbidden"
  else if user.role == "teacher" then render
  else ApiResult.authorizationError "Forbidden"

/-! ### Counting lemmas for the membership check -/

lemma mem_matchingStudents (st : Store) (c : Nat) (ids : List Nat) (s : Student) :
    s ∈ matchingStudents st c ids ↔ s ∈ st.students ∧ s.id ∈ ids ∧ s.class_id = c := by
  simp [matchingStudents, List.mem_filter, and_assoc]

lemma matchingStudents_map_id_nodup (st : Store) (c : Nat) (ids : List Nat)
    (h : (st.students.map (fun s => s.id)).Nodup) :
    ((matchingStudents st c ids).map (fun s => s.id)).Nodup :=
  List.Nodup.sublist (List.Sublist.map _ (List.filter_sublist _)) h

lemma matchingStudents_length_lt (st : Store) (c : Nat) (ids : List Nat) (bad : Nat)
    (hn : (st.students.map (fun s => s.id)).Nodup)
    (hbad : bad ∈ ids)
    (hnot : ∀ s ∈ st.students, s.id = bad → s.class_id ≠ c) :
    (matchingStudents st c ids).length < ids.length := by
  have hsub : (matchingStudents st c ids).map (fun s => s.id) ⊆ ids.erase bad := by
    intro i hi
    rcases List.mem_map.mp hi with ⟨s, hs, rfl⟩
    rcases (mem_matchingStudents st c ids s).mp hs with ⟨hmem, hin, hcls⟩
    have hne : s.id ≠ bad := fun he => hnot s hmem he hcls
    exact (List.mem_erase_of_ne hne).mpr hin
  have hle := List.Subperm.length_le
    (List.subperm_of_subset (matchingStudents_map_id_nodup st c ids hn) hsub)
  rw [List.length_map] at hle
  have herase := List.length_erase_of_mem hbad
  have hpos := List.length_pos_of_mem hbad
  omega

lemma matchingStudents_length_le_dedup (st : Store) (c : Nat) (ids : List Nat)
    (hn : (st.students.map (fun s => s.id)).Nodup) :
    (matchingStudents st c ids).length ≤ ids.dedup.length := by
  have hsub : (matchingStudents st c ids).map (fun s => s.id) ⊆ ids.dedup := by
    intro i hi
    rcases List.mem_map.mp hi with ⟨s, hs, rfl⟩
    rcases (mem_matchingStudents st c ids s).mp hs with ⟨_, hin, _⟩
    exact List.mem_dedup.mpr hin
  have hle := List.Subperm.length_le
    (List.subperm_of_subset (matchingStudents_map_id_nodup st c ids hn) hsub)
  rwa [List.length_map] at hle

lemma dedup_length_lt_of_not_nodup {ids : List Nat} (h : ¬ ids.Nodup) :
    ids.dedup.length < ids.length := by
  rcases Nat.lt_or_ge ids.dedup.length ids.length with h1 | h1
  · exact h1
  · exact absurd (List.Sublist.eq_of_length (List.dedup_sublist ids)
      (Nat.le_antisymm (List.Sublist.length_le (List.dedup_sublist ids)) h1) ▸
        List.nodup_dedup ids) h

lemma matchingStudents_length_eq (st : Store) (c : Nat) (ids : List Nat)
    (hn : (st.students.map (fun s => s.id)).Nodup)
    (hids : ids.Nodup)
    (hmem : ∀ i ∈ ids, ∃ s ∈ st.students, s.id = i ∧ s.class_id = c) :
    (matchingStudents st c ids).length = ids.length := by
  have h1 : (matchingStudents st c ids).map (fun s => s.id) ⊆ ids := by
    intro i hi
    rcases List.mem_map.mp hi with ⟨s, hs, rfl⟩
    exact ((mem_matchingStudents st c ids s).mp hs).2.1
  have h2 : ids ⊆ (matchingStudents st c ids).map (fun s => s.id) := by
    intro i hi
    rcases hmem i hi with ⟨s, hsmem, hid, hcls⟩
    exact List.mem_map.mpr ⟨s, (mem_matchingStudents st c ids s).mpr ⟨hsmem, hid ▸ hi, hcls⟩, hid⟩
  have hperm := List.Subperm.antisymm
    (List.subperm_of_subset (matchingStudents_map_id_nodup st c ids hn) h1)
    (List.subperm_of_subset hids h2)
  have := List.Perm.length_eq hperm
  rwa [List.length_map] at this

/-! ### Branch analysis of the commit handler -/

lemma survivingIds_ne_nil_of_mem {records : List RawRecord} {x : Nat}
    (hx : x ∈ survivingIds records) : records ≠ [] := by
  intro he
  subst he
  simp [survivingIds] at hx

lemma commitAttendance_eq_membership_branch
    (st : Store) (now : Nat) (session_id : Int) (records : List RawRecord) (sess : Session)
    (hpos : 0 < session_id)
    (hfind : st.sessions.find? (fun s => s.id == session_id.toNat) = some sess)
    (hids : survivingIds records ≠ [])
    (hstat : records.all statusOk = true) :
    commitAttendance st now session_id records =
      if (matchingStudents st sess.class_id (survivingIds records)).length ≠
          (survivingIds records).length then
        Except.error "Some students do not belong to this session class"
      else
        Except.ok { st with
          attendance := (records.filter isValidRecord).foldl
            (applyRecord session_id.toNat now) st.attendance } := by
  have hne : records ≠ [] := by
    rcases List.exists_mem_of_ne_nil _ hids with ⟨x, hx⟩
    exact survivingIds_ne_nil_of_mem hx
  have h1 : records.isEmpty = false := by simpa [List.isEmpty_iff] using hne
  have h2 : ¬ (session_id ≤ 0) := by omega
  have h3 : (survivingIds records).isEmpty = false := by simpa [List.isEmpty_iff] using hids
  have h4 : (records.filter isValidRecord).isEmpty = false := by
    rcases List.exists_mem_of_ne_nil _ hids with ⟨x, hx⟩
    rcases List.mem_filterMap.mp hx with ⟨r, hr, hcoe⟩
    have hvalid : isValidRecord r = true := by
      have hst : statusOk r = true := by
        have := List.all_eq_true.mp hstat
        exact this r hr
      simp [isValidRecord, hcoe, hst]
    have : r ∈ records.filter isValidRecord := List.mem_filter.mpr ⟨hr, hvalid⟩
    simpa [List.isEmpty_iff] using List.ne_nil_of_mem this
  simp only [commitAttendance, h1, h2, hfind, h3, hstat, h4, Bool.not_true, Bool.false_eq_true,
    if_false, ite_false, ite_true, Bool.not_false]

lemma commitAttendance_error_of_bad_status
    (st : Store) (now : Nat) (session_id : Int) (records : List RawRecord) (sess : Session)
    (hpos : 0 < session_id)
    (hfind : st.sessions.find? (fun s => s.id == session_id.toNat) = some sess)
    (hids : survivingIds records ≠ [])
    (hstat : records.all statusOk = false) :
    commitAttendance st now session_id records =
      Except.error "Invalid status values. Must be present or absent" := by
  have hne : records ≠ [] := by
    rcases List.exists_mem_of_ne_nil _ hids with ⟨x, hx⟩
    exact survivingIds_ne_nil_of_mem hx
  have h1 : records.isEmpty = false := by simpa [List.isEmpty_iff] using hne
  have h2 : ¬ (session_id ≤ 0) := by omega
  have h3 : (survivingIds records).isEmpty = false := by simpa [List.isEmpty_iff] using hids
  simp only [commitAttendance, h1, h2, hfind, h3, hstat, Bool.not_false, Bool.false_eq_true,
    if_false, ite_false, ite_true]

/-- Concrete store used by the witnesses: the demo class of `schema.sql`
(one class, one student, two sessions, the student marked present in the
first session). -/
def demoStore : Store :=
  { classes := [{ id := 1, name := "Class 12", description := none }],
    students := [{ id := 1, name := "aditya", roll_number := some "123", class_id := 1 }],
    sessions := [{ id := 1, class_id := 1, date := "2024-01-10", topic := none },
                 { id := 2, class_id := 1, date := "2024-01-11", topic := none }],
    attendance := [{ session_id := 1, student_id := 1, status := "present", marked_at := 5 }] }

/-- C1: for every attendance batch in which at least one surviving requested
student id does not belong to the session's class, `commitAttendance` fails
with a validation error, and the attendance rows persisted for the session
are exactly the same after the call as before it: the transaction rolls
back, so the caller observes the unchanged pre-call store. -/
theorem commitAttendance_rejects_nonmember
    (st : Store) (now : Nat) (session_id : Int) (records : List RawRecord)
    (sess : Session) (bad : Nat)
    (hstud : (st.students.map (fun s => s.id)).Nodup)
    (hpos : 0 < session_id)
    (hfind : st.sessions.find? (fun s => s.id == session_id.toNat) = some sess)
    (hbad : bad ∈ survivingIds records)
    (hnot : ∀ s ∈ st.students, s.id = bad → s.class_id ≠ sess.class_id) :
    (∃ msg, commitAttendance st now session_id records = Except.error msg) ∧
      commitResultStore st now session_id records = st := by
  have hids : survivingIds records ≠ [] := List.ne_nil_of_mem hbad
  have herr : ∃ msg, commitAttendance st now session_id records = Except.error msg := by
    cases hstat : records.all statusOk with
    | false =>
      exact ⟨_, commitAttendance_error_of_bad_status st now session_id records sess
        hpos hfind hids hstat⟩
    | true =>
      have hlt := matchingStudents_length_lt st sess.class_id (survivingIds records) bad
        hstud hbad hnot
      exact ⟨_, by
        rw [commitAttendance_eq_membership_branch st now session_id records sess
          hpos hfind hids hstat, if_pos (by omega)]⟩
  rcases herr with ⟨msg, hmsg⟩
  exact ⟨⟨msg, hmsg⟩, by simp [commitResultStore, hmsg]⟩

/-- Witness for C1: student 2 does not exist in the class of session 1 of
`demoStore`, so the batch is rejected and the store is unchanged. -/
theorem commitAttendance_rejects_nonmember_witness :
    (∃ msg, commitAttendance demoStore 9 1 [{ student_id := some 2, status := "present" }] =
        Except.error msg) ∧
      commitResultStore demoStore 9 1 [{ student_id := some 2, status := "present" }] =
        demoStore :=
  commitAttendance_rejects_nonmember demoStore 9 1
    [{ student_id := some 2, status := "present" }]
    { id := 1, class_id := 1, date := "2024-01-10", topic := none } 2
    (by decide) (by decide) (by decide) (by decide) (by decide)

/-- C3 counterexample: a batch that repeats one student id that does belong
to the session's class.  Every surviving student id belongs to the class,
yet the membership check fails (it compares the matching-student count `1`
with the non-deduplicated surviving count `2`), so the claim "for every
batch whose surviving student_ids all belong to the session's class
(possibly with repetitions), the membership check passes" is false. -/
theorem commitAttendance_rejects_valid_repetition :
    (∀ x ∈ survivingIds
        [{ student_id := some 1, status := "present" },
         { student_id := some 1, status := "present" }],
      ∃ s ∈ demoStore.students, s.id = x ∧ s.class_id = 1) ∧
    commitAttendance demoStore 9 1
        [{ student_id := some 1, status := "present" },
         { student_id := some 1, status := "present" }] =
      Except.error "Some students do not belong to this session class" := by
  exact ⟨by decide, by decide⟩

/-- C3 (amended): the membership validation accepts a batch exactly when the
matching-student count equals the number of surviving student ids counted
with repetitions; in particular, for every batch whose surviving student ids
are pairwise distinct and all belong to the session's class (with all
statuses valid), the check passes and the commit succeeds. -/
theorem commitAttendance_accepts_distinct_members
    (st : Store) (now : Nat) (session_id : Int) (records : List RawRecord) (sess : Session)
    (hstud : (st.students.map (fun s => s.id)).Nodup)
    (hpos : 0 < session_id)
    (hfind : st.sessions.find? (fun s => s.id == session_id.toNat) = some sess)
    (hids : survivingIds records ≠ [])
    (hnodup : (survivingIds records).Nodup)
    (hstat : records.all statusOk = true)
    (hmem : ∀ x ∈ survivingIds records,
      ∃ s ∈ st.students, s.id = x ∧ s.class_id = sess.class_id) :
    ∃ st2, commitAttendance st now session_id records = Except.ok st2 := by
  have heq := matchingStudents_length_eq st sess.class_id (survivingIds records)
    hstud hnodup hmem
  exact ⟨_, by
    rw [commitAttendance_eq_membership_branch st now session_id records sess
      hpos hfind hids hstat, if_neg (by omega)]⟩

/-- Witness for the amended C3: a singleton batch for the one student of
the class commits successfully. -/
theorem commitAttendance_accepts_distinct_members_witness :
    ∃ st2, commitAttendance demoStore 9 1 [{ student_id := some 1, status := "present" }] =
      Except.ok st2 :=
  commitAttendance_accepts_distinct_members demoStore 9 1
    [{ student_id := some 1, status := "present" }]
    { id := 1, class_id := 1, date := "2024-01-10", topic := none }
    (by decide) (by decide) (by decide) (by decide) (by decide) (by decide) (by decide)

/-- C10: a batch in which the same coercible student id appears in more than
one record is rejected as a whole with a validation error and persists
nothing, even when every referenced student belongs to the session's class
and every status is valid: the membership count check compares against the
non-deduplicated list of surviving student ids. -/
theorem commitAttendance_rejects_duplicate_ids
    (st : Store) (now : Nat) (session_id : Int) (records : List RawRecord) (sess : Session)
    (hstud : (st.students.map (fun s => s.id)).Nodup)
    (hpos : 0 < session_id)
    (hfind : st.sessions.find? (fun s => s.id == session_id.toNat) = some sess)
    (hdup : ¬ (survivingIds records).Nodup)
    (hstat : records.all statusOk = true)
    (hmem : ∀ x ∈ survivingIds records,
      ∃ s ∈ st.students, s.id = x ∧ s.class_id = sess.class_id) :
    (∃ msg, commitAttendance st now session_id records = Except.error msg) ∧
      commitResultStore st now session_id records = st := by
  have hids : survivingIds records ≠ [] := by
    intro he
    rw [he] at hdup
    exact hdup List.nodup_nil
  have hlt : (matchingStudents st sess.class_id (survivingIds records)).length <
      (survivingIds records).length :=
    lt_of_le_of_lt
      (matchingStudents_length_le_dedup st sess.class_id (survivingIds records) hstud)
      (dedup_length_lt_of_not_nodup hdup)
  have herr : commitAttendance st now session_id records =
      Except.error "Some students do not belong to this session class" := by
    rw [commitAttendance_eq_membership_branch st now session_id records sess
      hpos hfind hids hstat, if_pos (by omega)]
  exact ⟨⟨_, herr⟩, by simp [commitResultStore, herr]⟩

/-- Witness for C10: marking the same (valid) student twice in one batch is
rejected and the store is unchanged. -/
theorem commitAttendance_rejects_duplicate_ids_witness :
    (∃ msg, commitAttendance demoStore 9 1
        [{ student_id := some 1, status := "present" },
         { student_id := some 1, status := "absent" }] = Except.error msg) ∧
      commitResultStore demoStore 9 1
        [{ student_id := some 1, status := "present" },
         { student_id := some 1, status := "absent" }] = demoStore :=
  commitAttendance_rejects_duplicate_ids demoStore 9 1
    [{ student_id := some 1, status := "present" },
     { student_id := some 1, status := "absent" }]
    { id := 1, class_id := 1, date := "2024-01-10", topic := none }
    (by decide) (by decide) (by decide) (by decide) (by decide) (by decide)

/-- C4 (code bug): on `demoStore` (one student, two sessions of the class,
attendance marked only in the first) `classSummary` reports `total = 1`
(sessions where the student has a record) while the export's query reports
`total = 2` (all sessions of the class) and `absents = 1`, so the export
does not produce the same rows as the Reporting Engine. -/
theorem exportSummary_total_diverges :
    (classSummary demoStore 1).map (fun r => (r.total, r.presents, r.absents)) = [(1, 1, 0)]
    ∧ (classSummaryExport demoStore 1).map (fun r => (r.total, r.presents, r.absents)) =
        [(2, 1, 1)]
    ∧ classSummaryExport demoStore 1 ≠ classSummary demoStore 1 :=
  ⟨by decide, by decide, by decide⟩

/-! ### Upsert lemmas -/

lemma any_key_iff (att : List AttendanceRecord) (sid stid : Nat) :
    (att.any (fun a => a.session_id == sid && a.student_id == stid)) = true ↔
      (sid, stid) ∈ att.map keyOf := by
  simp only [List.any_eq_true, Bool.and_eq_true, beq_iff_eq, List.mem_map, keyOf]
  constructor
  · rintro ⟨a, ha, h1, h2⟩
    exact ⟨a, ha, by rw [h1, h2]⟩
  · rintro ⟨a, ha, h⟩
    exact ⟨a, ha, congrArg Prod.fst h, congrArg Prod.snd h⟩

lemma upsert_map_keyOf (att : List AttendanceRecord) (sid stid : Nat) (status : String)
    (now : Nat) :
    (upsert att sid stid status now).map keyOf =
      if (sid, stid) ∈ att.map keyOf then att.map keyOf
      else att.map keyOf ++ [(sid, stid)] := by
  unfold upsert
  by_cases h : (att.any (fun a => a.session_id == sid && a.student_id == stid)) = true
  · rw [if_pos h, if_pos ((any_key_iff att sid stid).mp h)]
    rw [List.map_map]
    apply List.map_congr_left
    intro a _
    by_cases hc : (a.session_id == sid && a.student_id == stid) = true <;>
      simp [Function.comp, hc, keyOf]
  · rw [if_neg h, if_neg (fun hm => h ((any_key_iff att sid stid).mpr hm))]
    simp [keyOf]

lemma upsert_keys_nodup (att : List AttendanceRecord) (sid stid : Nat) (status : String)
    (now : Nat) (h : (att.map keyOf).Nodup) :
    ((upsert att sid stid status now).map keyOf).Nodup := by
  rw [upsert_map_keyOf]
  by_cases hm : (sid, stid) ∈ att.map keyOf
  · rwa [if_pos hm]
  · rw [if_neg hm]
    simp [List.nodup_append, h, hm]

lemma upsert_preserves_old (att : List AttendanceRecord) (sid stid : Nat) (status : String)
    (now : Nat) (a : AttendanceRecord) (ha : a ∈ att) :
    ∃ b ∈ upsert att sid stid status now, keyOf b = keyOf a ∧ b.marked_at = a.marked_at := by
  unfold upsert
  by_cases h : (att.any (fun x => x.session_id == sid && x.student_id == stid)) = true
  · rw [if_pos h]
    refine ⟨_, List.mem_map.mpr ⟨a, ha, rfl⟩, ?_⟩
    by_cases hc : (a.session_id == sid && a.student_id == stid) = true <;> simp [hc, keyOf]
  · rw [if_neg h]
    exact ⟨a, List.mem_append_left _ ha, rfl, rfl⟩

lemma upsert_provenance (att : List AttendanceRecord) (sid stid : Nat) (status : String)
    (now : Nat) (b : AttendanceRecord) (hb : b ∈ upsert att sid stid status now) :
    (∃ a ∈ att, keyOf b = keyOf a ∧ b.marked_at = a.marked_at) ∨
      (b.marked_at = now ∧ b.session_id = sid) := by
  unfold upsert at hb
  by_cases h : (att.any (fun x => x.session_id == sid && x.student_id == stid)) = true
  · rw [if_pos h] at hb
    rcases List.mem_map.mp hb with ⟨a, ha, rfl⟩
    left
    refine ⟨a, ha, ?_⟩
    by_cases hc : (a.session_id == sid && a.student_id == stid) = true <;> simp [hc, keyOf]
  · rw [if_neg h] at hb
    rcases List.mem_append.mp hb with hmem | hmem
    · exact Or.inl ⟨b, hmem, rfl, rfl⟩
    · have hbnew := List.mem_singleton.mp hmem
      subst hbnew
      exact Or.inr ⟨rfl, rfl⟩

lemma upsert_keys_superset (att : List AttendanceRecord) (sid stid : Nat) (status : String)
    (now : Nat) (k : Nat × Nat) (hk : k ∈ att.map keyOf) :
    k ∈ (upsert att sid stid status now).map keyOf := by
  rw [upsert_map_keyOf]
  by_cases hm : (sid, stid) ∈ att.map keyOf
  · rwa [if_pos hm]
  · rw [if_neg hm]
    exact List.mem_append_left _ hk

lemma upsert_key_added (att : List AttendanceRecord) (sid stid : Nat) (status : String)
    (now : Nat) : (sid, stid) ∈ (upsert att sid stid status now).map keyOf := by
  rw [upsert_map_keyOf]
  by_cases hm : (sid, stid) ∈ att.map keyOf
  · rwa [if_pos hm]
  · rw [if_neg hm]
    exact List.mem_append_right _ (by simp)

/-! ### Fold of the upsert loop -/

lemma foldl_applyRecord_keys_nodup (sid now : Nat) (l : List RawRecord)
    (att : List AttendanceRecord) (h : (att.map keyOf).Nodup) :
    ((l.foldl (applyRecord sid now) att).map keyOf).Nodup := by
  induction l generalizing att with
  | nil => exact h
  | cons r t ih =>
    rw [List.foldl_cons]
    apply ih
    rcases hcoe : coerceStudentId r with _ | stid <;> simp only [applyRecord, hcoe]
    · exact h
    · exact upsert_keys_nodup att sid stid _ now h

lemma foldl_applyRecord_preserves_old (sid now : Nat) (l : List RawRecord)
    (att : List AttendanceRecord) (a : AttendanceRecord) (ha : a ∈ att) :
    ∃ b ∈ l.foldl (applyRecord sid now) att,
      keyOf b = keyOf a ∧ b.marked_at = a.marked_at := by
  induction l generalizing att a with
  | nil => exact ⟨a, ha, rfl, rfl⟩
  | cons r t ih =>
    rw [List.foldl_cons]
    have hstep : ∃ b ∈ applyRecord sid now att r,
        keyOf b = keyOf a ∧ b.marked_at = a.marked_at := by
      rcases hcoe : coerceStudentId r with _ | stid <;> simp only [applyRecord, hcoe]
      · exact ⟨a, ha, rfl, rfl⟩
      · exact upsert_preserves_old att sid stid _ now a ha
    rcases hstep with ⟨b, hb, hk, hm⟩
    rcases ih (applyRecord sid now att r) b hb with ⟨c, hc, hk2, hm2⟩
    exact ⟨c, hc, hk2.trans hk, hm2.trans hm⟩

lemma foldl_applyRecord_provenance (sid now : Nat) (l : List RawRecord)
    (att : List AttendanceRecord) (b : AttendanceRecord)
    (hb : b ∈ l.foldl (applyRecord sid now) att) :
    (∃ a ∈ att, keyOf b = keyOf a ∧ b.marked_at = a.marked_at) ∨
      (b.marked_at = now ∧ b.session_id = sid) := by
  induction l generalizing att with
  | nil => exact Or.inl ⟨b, hb, rfl, rfl⟩
  | cons r t ih =>
    rw [List.foldl_cons] at hb
    rcases ih (applyRecord sid now att r) hb with ⟨a, ha, hk, hm⟩ | hnew
    · have hstep : (∃ a0 ∈ att, keyOf a = keyOf a0 ∧ a.marked_at = a0.marked_at) ∨
          (a.marked_at = now ∧ a.session_id = sid) := by
        rcases hcoe : coerceStudentId r with _ | stid
        · simp only [applyRecord, hcoe] at ha
          exact Or.inl ⟨a, ha, rfl, rfl⟩
        · simp only [applyRecord, hcoe] at ha
          exact upsert_provenance att sid stid _ now a ha
      rcases hstep with ⟨a0, ha0, hk0, hm0⟩ | ⟨hmn, hsn⟩
      · exact Or.inl ⟨a0, ha0, hk.trans hk0, hm.trans hm0⟩
      · right
        refine ⟨hm.trans hmn, ?_⟩
        have hfst := congrArg Prod.fst hk
        simp only [keyOf] at hfst
        rw [hfst, hsn]
    · exact Or.inr hnew

lemma foldl_applyRecord_key_present (sid now : Nat) (l : List RawRecord)
    (att : List AttendanceRecord) (k : Nat × Nat) (hk : k ∈ att.map keyOf) :
    k ∈ (l.foldl (applyRecord sid now) att).map keyOf := by
  induction l generalizing att with
  | nil => exact hk
  | cons r t ih =>
    rw [List.foldl_cons]
    apply ih
    rcases hcoe : coerceStudentId r with _ | stid <;> simp only [applyRecord, hcoe]
    · exact hk
    · exact upsert_keys_superset att sid stid _ now k hk

lemma foldl_applyRecord_key_added (sid now : Nat) (l : List RawRecord)
    (att : List AttendanceRecord) (x : Nat)
    (hx : ∃ r ∈ l, coerceStudentId r = some x) :
    (sid, x) ∈ (l.foldl (applyRecord sid now) att).map keyOf := by
  induction l generalizing att with
  | nil => simp at hx
  | cons r t ih =>
    rw [List.foldl_cons]
    rcases hx with ⟨r2, hr2, hcoe2⟩
    rcases List.mem_cons.mp hr2 with rfl | hmem
    · apply foldl_applyRecord_key_present
      simp only [applyRecord, hcoe2]
      exact upsert_key_added att sid x _ now
    · exact ih (applyRecord sid now att r) ⟨r2, hmem, hcoe2⟩

lemma commitAttendance_ok_inv (st : Store) (now : Nat) (session_id : Int)
    (records : List RawRecord) (st2 : Store)
    (hok : commitAttendance st now session_id records = Except.ok st2) :
    st2.attendance = (records.filter isValidRecord).foldl
      (applyRecord session_id.toNat now) st.attendance
    ∧ records.all statusOk = true := by
  simp only [commitAttendance] at hok
  split at hok
  · cases hok
  split at hok
  · cases hok
  split at hok
  · cases hok
  split at hok
  · cases hok
  split at hok
  · cases hok
  split at hok
  · cases hok
  split at hok
  · cases hok
  injection hok with h7
  rename_i hids hstat hlen hval
  constructor
  · rw [← h7]
  · revert hstat
    cases records.all statusOk <;> simp

/-- C2: the commit keeps the `(session_id, student_id)` uniqueness of the
attendance table, so after any sequence of successful commits there is at
most one record per pair with exactly one for every pair ever marked; an
existing record keeps its `marked_at` across a later commit (only its
status may change), and every genuinely new record carries the committing
transaction's timestamp and the committed session id. -/
theorem commitAttendance_upsert_semantics
    (st : Store) (now : Nat) (session_id : Int) (records : List RawRecord) (st2 : Store)
    (hkeys : (st.attendance.map keyOf).Nodup)
    (hok : commitAttendance st now session_id records = Except.ok st2) :
    ((st2.attendance.map keyOf).Nodup)
    ∧ (∀ a ∈ st.attendance, ∃ b ∈ st2.attendance,
        keyOf b = keyOf a ∧ b.marked_at = a.marked_at)
    ∧ (∀ b ∈ st2.attendance,
        (∃ a ∈ st.attendance, keyOf b = keyOf a ∧ b.marked_at = a.marked_at)
        ∨ (b.marked_at = now ∧ b.session_id = session_id.toNat))
    ∧ (∀ x ∈ survivingIds records, ∃ b ∈ st2.attendance,
        b.session_id = session_id.toNat ∧ b.student_id = x) := by
  rcases commitAttendance_ok_inv st now session_id records st2 hok with ⟨hatt, hstat⟩
  refine ⟨?_, ?_, ?_, ?_⟩
  · rw [hatt]
    exact foldl_applyRecord_keys_nodup _ _ _ _ hkeys
  · intro a ha
    rw [hatt]
    exact foldl_applyRecord_preserves_old _ _ _ _ a ha
  · intro b hb
    rw [hatt] at hb
    exact foldl_applyRecord_provenance _ _ _ _ b hb
  · intro x hx
    rcases List.mem_filterMap.mp (by simpa [survivingIds] using hx) with ⟨r, hr, hcoe⟩
    have hval : r ∈ records.filter isValidRecord := by
      refine List.mem_filter.mpr ⟨hr, ?_⟩
      have hsr := List.all_eq_true.mp hstat r hr
      simp [isValidRecord, hcoe, hsr]
    have hkey := foldl_applyRecord_key_added session_id.toNat now
      (records.filter isValidRecord) st.attendance x ⟨r, hval, hcoe⟩
    rw [← hatt] at hkey
    rcases List.mem_map.mp hkey with ⟨b, hb, hkb⟩
    have h1 := congrArg Prod.fst hkb
    have h2 := congrArg Prod.snd hkb
    simp only [keyOf] at h1 h2
    exact ⟨b, hb, h1, h2⟩

/-- The store after re-marking the one student of `demoStore` as absent in
session 1: the status is updated but `marked_at` keeps its first-commit
value `5`. -/
def demoStoreAfter : Store :=
  { demoStore with
    attendance := [{ session_id := 1, student_id := 1, status := "absent", marked_at := 5 }] }

/-- Witness for C2: re-marking student 1 in session 1 (status `Absent`,
transaction time 9) succeeds, keeps the key unique, and preserves the
original `marked_at` of 5. -/
theorem commitAttendance_upsert_semantics_witness :
    ((demoStoreAfter.attendance.map keyOf).Nodup)
    ∧ (∀ a ∈ demoStore.attendance, ∃ b ∈ demoStoreAfter.attendance,
        keyOf b = keyOf a ∧ b.marked_at = a.marked_at)
    ∧ (∀ b ∈ demoStoreAfter.attendance,
        (∃ a ∈ demoStore.attendance, keyOf b = keyOf a ∧ b.marked_at = a.marked_at)
        ∨ (b.marked_at = 9 ∧ b.session_id = (1 : Int).toNat))
    ∧ (∀ x ∈ survivingIds [{ student_id := some 1, status := "Absent" }],
        ∃ b ∈ demoStoreAfter.attendance,
          b.session_id = (1 : Int).toNat ∧ b.student_id = x) :=
  commitAttendance_upsert_semantics demoStore 9 1
    [{ student_id := some 1, status := "Absent" }] demoStoreAfter
    (by decide) (by decide)

/-! ### Class summary lemmas -/

lemma mem_studentAttendance (st : Store) (sid : Nat) (a : AttendanceRecord) :
    a ∈ studentAttendance st sid ↔ a ∈ st.attendance ∧ a.student_id = sid := by
  simp [studentAttendance, List.mem_filter]

lemma studentAttendance_sessions_nodup (st : Store) (sid : Nat)
    (hkeys : (st.attendance.map keyOf).Nodup) :
    ((studentAttendance st sid).map (fun a => a.session_id)).Nodup := by
  have h1 : ((studentAttendance st sid).map keyOf).Nodup :=
    List.Nodup.sublist (List.Sublist.map _ (List.filter_sublist _)) hkeys
  have h2 : (studentAttendance st sid).Pairwise (fun a b => keyOf a ≠ keyOf b) :=
    List.pairwise_map.mp h1
  have h3 : (studentAttendance st sid).Pairwise
      (fun a b => a.session_id ≠ b.session_id) := by
    refine List.Pairwise.imp_of_mem ?_ h2
    intro a b ha hb hne heq
    apply hne
    have hsa : a.student_id = sid := ((mem_studentAttendance st sid a).mp ha).2
    have hsb : b.student_id = sid := ((mem_studentAttendance st sid b).mp hb).2
    simp only [keyOf]
    rw [heq, hsa, hsb]
  exact List.pairwise_map.mpr h3

lemma summaryRow_presents_le_total (st : Store) (s : Student)
    (hkeys : (st.attendance.map keyOf).Nodup) :
    (summaryRow st s).presents ≤ (summaryRow st s).total := by
  have hnd := studentAttendance_sessions_nodup st s.id hkeys
  have htot : (summaryRow st s).total = (studentAttendance st s.id).length := by
    simp [summaryRow, List.Nodup.dedup hnd]
  have hpres : (summaryRow st s).presents ≤ (studentAttendance st s.id).length := by
    simp only [summaryRow]
    exact List.length_filter_le _ _
  omega

lemma summaryRow_absents (st : Store) (s : Student) :
    (summaryRow st s).absents =
      ((summaryRow st s).total : Int) - ((summaryRow st s).presents : Int) := rfl

lemma mem_classSummary (st : Store) (classId : Nat) (row : SummaryRow) :
    row ∈ classSummary st classId ↔
      ∃ s, (s ∈ st.students ∧ s.class_id = classId) ∧ summaryRow st s = row := by
  unfold classSummary
  rw [List.Perm.mem_iff (List.perm_insertionSort nameLe _)]
  simp [List.mem_filter]

/-- C5: every `classSummary` row satisfies `presents + absents = total` and
`presents ≤ total` (so `absents` is never negative and the percentage
denominator guard never divides by zero), and for a class whose students
have no attendance recorded, `classSummary` returns exactly one row per
student of the class, each with `total = 0`, `presents = 0`,
`absents = 0`. -/
theorem classSummary_row_invariants
    (st : Store) (classId : Nat)
    (hkeys : (st.attendance.map keyOf).Nodup) :
    (∀ row ∈ classSummary st classId,
      (row.presents : Int) + row.absents = (row.total : Int) ∧ row.presents ≤ row.total)
    ∧ ((∀ a ∈ st.attendance, ∀ s ∈ st.students, s.class_id = classId → a.student_id ≠ s.id) →
      (classSummary st classId).length =
          (st.students.filter (fun s => s.class_id == classId)).length
      ∧ ∀ row ∈ classSummary st classId,
          row.total = 0 ∧ row.presents = 0 ∧ row.absents = 0) := by
  constructor
  · intro row hrow
    rcases (mem_classSummary st classId row).mp hrow with ⟨s, ⟨hs, _⟩, hrow2⟩
    subst hrow2
    refine ⟨?_, summaryRow_presents_le_total st s hkeys⟩
    rw [summaryRow_absents]
    omega
  · intro hempty
    have hmine : ∀ s ∈ st.students, s.class_id = classId → studentAttendance st s.id = [] := by
      intro s hs hcl
      rw [studentAttendance, List.filter_eq_nil_iff]
      intro a ha
      simpa using hempty a ha s hs hcl
    constructor
    · unfold classSummary
      rw [List.Perm.length_eq (List.perm_insertionSort nameLe _), List.length_map]
    · intro row hrow
      rcases (mem_classSummary st classId row).mp hrow with ⟨s, ⟨hs, hcl⟩, hrow2⟩
      subst hrow2
      simp [summaryRow, hmine s hs hcl]

/-- Witness for C5 on the demo store. -/
theorem classSummary_row_invariants_witness :
    (∀ row ∈ classSummary demoStore 1,
      (row.presents : Int) + row.absents = (row.total : Int) ∧ row.presents ≤ row.total)
    ∧ ((∀ a ∈ demoStore.attendance, ∀ s ∈ demoStore.students,
          s.class_id = 1 → a.student_id ≠ s.id) →
      (classSummary demoStore 1).length =
          (demoStore.students.filter (fun s => s.class_id == 1)).length
      ∧ ∀ row ∈ classSummary demoStore 1,
          row.total = 0 ∧ row.presents = 0 ∧ row.absents = 0) :=
  classSummary_row_invariants demoStore 1 (by decide)

lemma summaryRow_total_eq (st : Store) (s : Student)
    (hsess : (st.sessions.map (fun x => x.id)).Nodup)
    (hfk : ∀ a ∈ st.attendance, ∃ sess ∈ st.sessions, sess.id = a.session_id)
    (hwf : ∀ a ∈ st.attendance, ∀ s2 ∈ st.students, s2.id = a.student_id →
      ∀ sess ∈ st.sessions, sess.id = a.session_id → sess.class_id = s2.class_id)
    (hs : s ∈ st.students) :
    (summaryRow st s).total =
      (st.sessions.filter (fun sess => sess.class_id == s.class_id &&
        st.attendance.any (fun a => a.student_id == s.id && a.session_id == sess.id))).length := by
  have hRid : ((st.sessions.filter (fun sess => sess.class_id == s.class_id &&
      st.attendance.any (fun a => a.student_id == s.id && a.session_id == sess.id))).map
        (fun x => x.id)).Nodup :=
    List.Nodup.sublist (List.Sublist.map _ (List.filter_sublist _)) hsess
  have h1 : ((studentAttendance st s.id).map (fun a => a.session_id)).dedup ⊆
      (st.sessions.filter (fun sess => sess.class_id == s.class_id &&
        st.attendance.any (fun a => a.student_id == s.id && a.session_id == sess.id))).map
          (fun x => x.id) := by
    intro z hz
    rcases List.mem_map.mp (List.mem_dedup.mp hz) with ⟨a, haA, rfl⟩
    rcases (mem_studentAttendance st s.id a).mp haA with ⟨ha, hsid⟩
    rcases hfk a ha with ⟨sess, hsess2, hsid2⟩
    have hcl : sess.class_id = s.class_id := hwf a ha s hs hsid.symm sess hsess2 hsid2
    refine List.mem_map.mpr ⟨sess, List.mem_filter.mpr ⟨hsess2, ?_⟩, hsid2⟩
    simp only [Bool.and_eq_true, beq_iff_eq, List.any_eq_true]
    exact ⟨hcl, a, ha, by simp [hsid, hsid2]⟩
  have h2 : (st.sessions.filter (fun sess => sess.class_id == s.class_id &&
      st.attendance.any (fun a => a.student_id == s.id && a.session_id == sess.id))).map
        (fun x => x.id) ⊆
      ((studentAttendance st s.id).map (fun a => a.session_id)).dedup := by
    intro z hz
    rcases List.mem_map.mp hz with ⟨sess, hsessR, rfl⟩
    have hcond := (List.mem_filter.mp hsessR).2
    simp only [Bool.and_eq_true, beq_iff_eq, List.any_eq_true] at hcond
    rcases hcond with ⟨_, a, ha, hstu, hses⟩
    apply List.mem_dedup.mpr
    exact List.mem_map.mpr ⟨a, (mem_studentAttendance st s.id a).mpr ⟨ha, hstu⟩, hses⟩
  have hperm := List.Subperm.antisymm
    (List.subperm_of_subset (List.nodup_dedup _) h1)
    (List.subperm_of_subset hRid h2)
  have hlen := List.Perm.length_eq hperm
  rw [List.length_map] at hlen
  simpa only [summaryRow] using hlen

/-- C6: `classSummary(class_id)` returns one row per student of the class
(including students with no attendance history), sorted by student name
ascending; each student's `total` equals the number of distinct sessions of
the class in which the student has any attendance record, and
`absents = total - presents`.  The hypotheses are the schema's constraints:
unique session ids, the attendance-to-session foreign key, and the
cross-entity invariant that an attendance row's student belongs to the
class of its session. -/
theorem classSummary_per_student_spec
    (st : Store) (classId : Nat)
    (hsess : (st.sessions.map (fun x => x.id)).Nodup)
    (hfk : ∀ a ∈ st.attendance, ∃ sess ∈ st.sessions, sess.id = a.session_id)
    (hwf : ∀ a ∈ st.attendance, ∀ s2 ∈ st.students, s2.id = a.student_id →
      ∀ sess ∈ st.sessions, sess.id = a.session_id → sess.class_id = s2.class_id) :
    List.Perm (classSummary st classId)
      ((st.students.filter (fun s => s.class_id == classId)).map (summaryRow st))
    ∧ (classSummary st classId).Pairwise (fun a b => a.student_name ≤ b.student_name)
    ∧ (∀ s ∈ st.students, s.class_id = classId →
        (summaryRow st s).total =
          (st.sessions.filter (fun sess => sess.class_id == classId &&
            st.attendance.any
              (fun a => a.student_id == s.id && a.session_id == sess.id))).length
        ∧ (summaryRow st s).absents =
            ((summaryRow st s).total : Int) - ((summaryRow st s).presents : Int)) := by
  refine ⟨List.perm_insertionSort nameLe _, List.sorted_insertionSort nameLe _, ?_⟩
  intro s hs hcl
  refine ⟨?_, rfl⟩
  rw [← hcl]
  exact summaryRow_total_eq st s hsess hfk hwf hs

/-- Witness for C6 on the demo store. -/
theorem classSummary_per_student_spec_witness :
    List.Perm (classSummary demoStore 1)
      ((demoStore.students.filter (fun s => s.class_id == 1)).map (summaryRow demoStore))
    ∧ (classSummary demoStore 1).Pairwise (fun a b => a.student_name ≤ b.student_name)
    ∧ (∀ s ∈ demoStore.students, s.class_id = 1 →
        (summaryRow demoStore s).total =
          (demoStore.sessions.filter (fun sess => sess.class_id == 1 &&
            demoStore.attendance.any
              (fun a => a.student_id == s.id && a.session_id == sess.id))).length
        ∧ (summaryRow demoStore s).absents =
            ((summaryRow demoStore s).total : Int) -
              ((summaryRow demoStore s).presents : Int)) :=
  classSummary_per_student_spec demoStore 1 (by decide) (by decide) (by decide)

/-- C9: the student report returns the student's joined attendance rows
ordered by session date descending, with equal dates ordered by session id
descending (most recently created session first). -/
theorem studentReport_ordering (st : Store) (studentId : Nat) :
    List.Perm (studentReport st studentId) (studentReportRows st studentId)
    ∧ (studentReport st studentId).Pairwise (fun a b =>
        b.date < a.date ∨ (b.date = a.date ∧ b.session_id ≤ a.session_id)) :=
  ⟨List.perm_insertionSort sessDesc _, List.sorted_insertionSort sessDesc _⟩

/-! ### Access policy of the report routes -/

/-- C7: a student principal exporting their own report gets a 400
validation error for the tabular format (`csv`) and a successful document
export for `pdf`; admin and teacher principals can use either format for
any student id. -/
theorem exportStudentReport_format_policy
    (st : Store) (user : Principal) (sid : Nat)
    (hrole : user.role = "student") (hown : user.student_id = some sid) :
    (∃ msg, exportReportByStudent st user sid "csv" = ApiResult.validationError msg)
    ∧ exportReportByStudent st user sid "pdf" =
        ApiResult.ok (ExportDoc.pdfDoc (studentReport st sid))
    ∧ (∀ u2 : Principal, u2.role = "admin" ∨ u2.role = "teacher" → ∀ sid2 : Nat,
        exportReportByStudent st u2 sid2 "csv" =
          ApiResult.ok (ExportDoc.csvDoc (studentReport st sid2))
        ∧ exportReportByStudent st u2 sid2 "pdf" =
          ApiResult.ok (ExportDoc.pdfDoc (studentReport st sid2))) := by
  have e1 : (("student" : String) == "admin") = false := by decide
  have e2 : (("student" : String) == "student") = true := by decide
  have e4 : (("csv" : String) != "") = true := by decide
  have e5 : (jsToLower "csv" != "pdf") = true := by decide
  have e6 : (("csv" : String) == "pdf") = false := by decide
  have e8 : (jsToLower "pdf" != "pdf") = false := by decide
  have e9 : (("pdf" : String) == "pdf") = true := by decide
  refine ⟨⟨"Students can only download PDF reports.", ?_⟩, ?_, ?_⟩
  · simp [exportReportByStudent, hrole, hown, e1, e2, e4, e5, e6]
  · simp [exportReportByStudent, hrole, hown, e1, e2, e8, e9]
  · intro u2 hu2 sid2
    rcases hu2 with hu2 | hu2
    · have f1 : (u2.role == "admin") = true := by simp [hu2]
      constructor <;> simp [exportReportByStudent, f1, e6, e9]
    · have f1 : (u2.role == "admin") = false := by simp [hu2]
      have f2 : (u2.role == "student") = false := by simp [hu2]
      have f3 : (u2.role == "teacher") = true := by simp [hu2]
      constructor <;> simp [exportReportByStudent, f1, f2, f3, e6, e9]

/-- Witness for C7 on the demo store with the demo student principal. -/
theorem exportStudentReport_format_policy_witness :
    (∃ msg, exportReportByStudent demoStore
        { id := 3, role := "student", class_id := some 1, student_id := some 1 } 1 "csv" =
      ApiResult.validationError msg)
    ∧ exportReportByStudent demoStore
        { id := 3, role := "student", class_id := some 1, student_id := some 1 } 1 "pdf" =
      ApiResult.ok (ExportDoc.pdfDoc (studentReport demoStore 1))
    ∧ (∀ u2 : Principal, u2.role = "admin" ∨ u2.role = "teacher" → ∀ sid2 : Nat,
        exportReportByStudent demoStore u2 sid2 "csv" =
          ApiResult.ok (ExportDoc.csvDoc (studentReport demoStore sid2))
        ∧ exportReportByStudent demoStore u2 sid2 "pdf" =
          ApiResult.ok (ExportDoc.pdfDoc (studentReport demoStore sid2))) :=
  exportStudentReport_format_policy demoStore
    { id := 3, role := "student", class_id := some 1, student_id := some 1 } 1 rfl rfl

/-- C8: a student principal requesting another student's report (or with no
associated student record) is rejected with a 403 authorization error, both
on the report route and on the export route, regardless of the requested
export format. -/
theorem studentReport_access_denied_for_other
    (st : Store) (user : Principal) (sid : Nat) (format : String)
    (hrole : user.role = "student")
    (hmis : ∀ own, user.student_id = some own → own ≠ sid)
    (hpos : 0 < sid) :
    (∃ msg, getReportByStudent st user (sid : Int) = ApiResult.authorizationError msg)
    ∧ (∃ msg, exportReportByStudent st user sid format = ApiResult.authorizationError msg) := by
  have e1 : (("student" : String) == "admin") = false := by decide
  have e2 : (("student" : String) == "student") = true := by decide
  have hne0 : sid ≠ 0 := by omega
  have hnle : ¬ ((sid : Int) ≤ 0) := by omega
  cases hstu : user.student_id with
  | none =>
    constructor
    · exact ⟨"Forbidden: You can only view your own attendance",
        by simp [getReportByStudent, hrole, hstu, e1, e2, hne0, hnle]⟩
    · exact ⟨"Forbidden", by simp [exportReportByStudent, hrole, hstu, e1, e2]⟩
  | some own =>
    have hne : own ≠ sid := hmis own hstu
    have hbeq : (own == sid) = false := by simpa using hne
    constructor
    · exact ⟨"Forbidden: You can only view your own attendance",
        by simp [getReportByStudent, hrole, hstu, e1, e2, hne0, hnle, hne]⟩
    · exact ⟨"Forbidden", by simp [exportReportByStudent, hrole, hstu, e1, e2, hbeq, hne]⟩

/-- Witness for C8: the demo student principal (own student id 1) asking
for student 2. -/
theorem studentReport_access_denied_for_other_witness :
    (∃ msg, getReportByStudent demoStore
        { id := 3, role := "student", class_id := some 1, student_id := some 1 }
        ((2 : Nat) : Int) = ApiResult.authorizationError msg)
    ∧ (∃ msg, exportReportByStudent demoStore
        { id := 3, role := "student", class_id := some 1, student_id := some 1 } 2 "csv" =
      ApiResult.authorizationError msg) :=
  studentReport_access_denied_for_other demoStore
    { id := 3, role := "student", class_id := some 1, student_id := some 1 } 2 "csv"
    rfl (by decide) (by decide)
